import Mathlib

/-!
Verification of the Black-76 SPX option pricing engine (src/pricing/black76.py)
and its MCP tool boundary (src/server.py), shallowly embedded over the reals.
-/

open Filter Set MeasureTheory

/-- Python str.lower() for the ASCII strings handled here, as a character map. -/
def strLower (s : String) : String :=
  ⟨s.data.map Char.toLower⟩

/-- Python str.upper() for the ASCII strings handled here, as a character map. -/
def strUpper (s : String) : String :=
  ⟨s.data.map Char.toUpper⟩

/-- Option type tag, mirroring the OptionType string enum (black76.py lines 12-15). -/
inductive OptionType where
  | CALL
  | PUT
deriving DecidableEq

/-- Parsing of an option-type string with lower-casing, as performed by the engine
at black76.py line 95: OptionType(option_type.lower()); Python enum lookup matches
the member values "call" and "put" exactly, raising ValueError otherwise. -/
def OptionType.fromString (s : String) : Option OptionType :=
  if strLower s = "call" then some OptionType.CALL
  else if strLower s = "put" then some OptionType.PUT
  else none

/-- Exact-match construction OptionType(value) with no lower-casing, as performed
by the server body at server.py line 68. -/
def OptionType.ofValue (s : String) : Option OptionType :=
  if s = "call" then some OptionType.CALL
  else if s = "put" then some OptionType.PUT
  else none

/-- The option_type argument of black76_price, which is typed OptionType | str. -/
inductive OptionTypeArg where
  | ofType (t : OptionType)
  | ofString (s : String)

/-- Result of SPX option pricing (black76.py lines 18-32), real-valued model of the
frozen dataclass of four floats. -/
structure SPXOptionResult where
  price : ℝ
  delta : ℝ
  gamma : ℝ
  vega : ℝ

/-- Derived dollar_price property: price times the 100 dollar SPX multiplier
(black76.py lines 34-37). -/
noncomputable def SPXOptionResult.dollar_price (r : SPXOptionResult) : ℝ :=
  r.price * 100

/-- Python round(x, n): round half to even at n decimal places, modelled over ℝ. -/
noncomputable def pyRound (x : ℝ) (n : ℕ) : ℝ :=
  let y : ℝ := x * 10 ^ n
  let f : ℤ := Int.floor y
  let i : ℤ :=
    if y - f < 1 / 2 then f
    else if 1 / 2 < y - f then f + 1
    else if f % 2 = 0 then f else f + 1
  (i : ℝ) / 10 ^ n

/-- Dictionary produced by SPXOptionResult.to_dict (black76.py lines 39-47). -/
structure ResultDict where
  price : ℝ
  dollar_price : ℝ
  delta : ℝ
  gamma : ℝ
  vega : ℝ

/-- SPXOptionResult.to_dict (black76.py lines 39-47); the decimals parameter
defaults to 4 in the source. -/
noncomputable def SPXOptionResult.to_dict (r : SPXOptionResult) (decimals : ℕ) : ResultDict :=
  ⟨pyRound r.price decimals, pyRound r.dollar_price 2, pyRound r.delta decimals,
    pyRound r.gamma 6, pyRound r.vega decimals⟩

/-- Gauss error function, the mathematical function computed by math.erf. -/
noncomputable def erf (x : ℝ) : ℝ :=
  2 / Real.sqrt Real.pi * ∫ t in (0:ℝ)..x, Real.exp (-t ^ 2)

/-- Standard normal CDF via the error function (black76.py lines 50-52). -/
noncomputable def norm_cdf (x : ℝ) : ℝ :=
  0.5 * (1 + erf (x / Real.sqrt 2))

/-- Standard normal PDF (black76.py lines 55-57). -/
noncomputable def norm_pdf (x : ℝ) : ℝ :=
  Real.exp (-0.5 * x * x) / Real.sqrt (2 * Real.pi)

/-- A ValueError raised by the engine: either one of the four numeric precondition
messages "(param) must be positive, got (value)", or the enum construction failure
"(value) is not a valid OptionType". -/
inductive PricingError where
  | invalidNumeric (param : String) (value : ℝ)
  | invalidOptionType (value : String)

/-- The arithmetic core of black76_price (black76.py lines 97-123), reached after
validation and option-type resolution. -/
noncomputable def blackCompute (forward_price strike dcf df implied_volatility : ℝ)
    (option_type : OptionType) : SPXOptionResult :=
  let sqrt_t := Real.sqrt dcf
  let d_1 := (Real.log (forward_price / strike) + implied_volatility ^ 2 / 2 * dcf) /
    (implied_volatility * sqrt_t)
  let d_2 := d_1 - implied_volatility * sqrt_t
  let pdf_d1 := norm_pdf d_1
  let price :=
    if option_type = OptionType.CALL then
      df * (forward_price * norm_cdf d_1 - strike * norm_cdf d_2)
    else
      df * (strike * norm_cdf (-d_2) - forward_price * norm_cdf (-d_1))
  let delta :=
    if option_type = OptionType.CALL then df * norm_cdf d_1
    else -df * norm_cdf (-d_1)
  let gamma := df * pdf_d1 / (forward_price * implied_volatility * sqrt_t)
  let vega := df * forward_price * pdf_d1 * sqrt_t / 100
  ⟨price, delta, gamma, vega⟩

/-- black76_price (black76.py lines 60-123): the four numeric validations in source
order, then option-type resolution (strings are lower-cased and parsed, raising for
unrecognized strings), then the closed-form computation. -/
noncomputable def black76_price (forward_price strike dcf df implied_volatility : ℝ)
    (option_type : OptionTypeArg) : Except PricingError SPXOptionResult :=
  if forward_price ≤ 0 then Except.error (PricingError.invalidNumeric "Forward" forward_price)
  else if strike ≤ 0 then Except.error (PricingError.invalidNumeric "Strike" strike)
  else if dcf ≤ 0 then Except.error (PricingError.invalidNumeric "DCF" dcf)
  else if implied_volatility ≤ 0 then
    Except.error (PricingError.invalidNumeric "Volatility" implied_volatility)
  else
    match option_type with
    | OptionTypeArg.ofType t =>
        Except.ok (blackCompute forward_price strike dcf df implied_volatility t)
    | OptionTypeArg.ofString s =>
        match OptionType.fromString s with
        | some t => Except.ok (blackCompute forward_price strike dcf df implied_volatility t)
        | none => Except.error (PricingError.invalidOptionType s)

/-- Arguments of the price_option_black76 tool (server.py lines 48-55). -/
structure ToolArgs where
  forward_price : ℝ
  strike : ℝ
  dcf : ℝ
  df : ℝ
  implied_volatility : ℝ
  option_type : String

/-- The parameter contract declared by the tool signature (server.py lines 49-54):
Field gt=0 on forward_price, strike, df and implied_volatility, no constraint on
dcf, and the case-sensitive pattern (call|put) anchored on both sides. -/
def schemaOk (a : ToolArgs) : Prop :=
  0 < a.forward_price ∧ 0 < a.strike ∧ 0 < a.df ∧ 0 < a.implied_volatility ∧
    (a.option_type = "call" ∨ a.option_type = "put")

/-- Response record of the tool body (server.py lines 71-94): a success record with
the upper-cased type, echoed forward and strike, and the rounded premium and Greeks,
or an error record carrying the caught exception. -/
inductive ToolResponse where
  | success (typeUpper : String) (forward strike premium delta gamma vega1pct : ℝ)
  | error (e : PricingError)

/-- Body of price_option_black76 (server.py lines 67-94): construct the OptionType
by exact value match, call the engine, round only for serialization; every
ValueError and every other exception becomes the error record. -/
noncomputable def price_option_black76 (a : ToolArgs) : ToolResponse :=
  match OptionType.ofValue a.option_type with
  | none => ToolResponse.error (PricingError.invalidOptionType a.option_type)
  | some t =>
      match black76_price a.forward_price a.strike a.dcf a.df a.implied_volatility
          (OptionTypeArg.ofType t) with
      | Except.error e => ToolResponse.error e
      | Except.ok r =>
          ToolResponse.success (strUpper a.option_type) a.forward_price a.strike
            (pyRound r.price 2) (pyRound r.delta 4) (pyRound r.gamma 6)
            (pyRound (r.vega * 100) 2)

/-- Observer: did the engine return a result (as opposed to raising)? -/
def exOk {ε α : Type} : Except ε α → Bool
  | Except.ok _ => true
  | Except.error _ => false

/-- Observer: is the tool response the success record? -/
def toolOk : ToolResponse → Bool
  | ToolResponse.success _ _ _ _ _ _ _ => true
  | ToolResponse.error _ => false

/-- Spec-side d1 as written in the specification. -/
noncomputable def d1 (F K T σ : ℝ) : ℝ :=
  (Real.log (F / K) + σ ^ 2 / 2 * T) / (σ * Real.sqrt T)

/-- Spec-side d2 = d1 − σ·sqrtT. -/
noncomputable def d2 (F K T σ : ℝ) : ℝ :=
  d1 F K T σ - σ * Real.sqrt T

/-- Closed-form Black-76 result for each side, written out with d1 and d2. -/
noncomputable def blackResult (F K T D σ : ℝ) : OptionType → SPXOptionResult
  | OptionType.CALL =>
      ⟨D * (F * norm_cdf (d1 F K T σ) - K * norm_cdf (d2 F K T σ)),
        D * norm_cdf (d1 F K T σ),
        D * norm_pdf (d1 F K T σ) / (F * σ * Real.sqrt T),
        D * F * norm_pdf (d1 F K T σ) * Real.sqrt T / 100⟩
  | OptionType.PUT =>
      ⟨D * (K * norm_cdf (-d2 F K T σ) - F * norm_cdf (-d1 F K T σ)),
        -D * norm_cdf (-d1 F K T σ),
        D * norm_pdf (d1 F K T σ) / (F * σ * Real.sqrt T),
        D * F * norm_pdf (d1 F K T σ) * Real.sqrt T / 100⟩

theorem blackCompute_eq_blackResult (F K T D σ : ℝ) (t : OptionType) :
    blackCompute F K T D σ t = blackResult F K T D σ t := by
  cases t <;> rfl

/-- On validated inputs the engine returns exactly the closed-form result. -/
theorem black76_valid_eq (F K T D σ : ℝ) (t : OptionType)
    (hF : 0 < F) (hK : 0 < K) (hT : 0 < T) (hσ : 0 < σ) :
    black76_price F K T D σ (OptionTypeArg.ofType t) =
      Except.ok (blackResult F K T D σ t) := by
  unfold black76_price
  rw [if_neg (not_le.mpr hF), if_neg (not_le.mpr hK), if_neg (not_le.mpr hT),
    if_neg (not_le.mpr hσ)]
  exact congrArg Except.ok (blackCompute_eq_blackResult F K T D σ t)

/-- On validated inputs with a recognized option-type string the engine returns
exactly the closed-form result for the parsed side. -/
theorem black76_valid_string_eq (F K T D σ : ℝ) (s : String) (t : OptionType)
    (hF : 0 < F) (hK : 0 < K) (hT : 0 < T) (hσ : 0 < σ)
    (hs : OptionType.fromString s = some t) :
    black76_price F K T D σ (OptionTypeArg.ofString s) =
      Except.ok (blackResult F K T D σ t) := by
  unfold black76_price
  rw [if_neg (not_le.mpr hF), if_neg (not_le.mpr hK), if_neg (not_le.mpr hT),
    if_neg (not_le.mpr hσ)]
  simp only [hs]
  exact congrArg Except.ok (blackCompute_eq_blackResult F K T D σ t)

/-- C10: black76_price checks forward_price, then strike, then dcf, then
implied_volatility, and parses the option-type string only after all four numeric
checks pass, so the single error raised identifies the first violated parameter
in that order. -/
theorem C10_validation_order (F K T D σ : ℝ) (s : String) :
    (F ≤ 0 → black76_price F K T D σ (OptionTypeArg.ofString s) =
      Except.error (PricingError.invalidNumeric "Forward" F)) ∧
    (0 < F → K ≤ 0 → black76_price F K T D σ (OptionTypeArg.ofString s) =
      Except.error (PricingError.invalidNumeric "Strike" K)) ∧
    (0 < F → 0 < K → T ≤ 0 → black76_price F K T D σ (OptionTypeArg.ofString s) =
      Except.error (PricingError.invalidNumeric "DCF" T)) ∧
    (0 < F → 0 < K → 0 < T → σ ≤ 0 → black76_price F K T D σ (OptionTypeArg.ofString s) =
      Except.error (PricingError.invalidNumeric "Volatility" σ)) ∧
    (0 < F → 0 < K → 0 < T → 0 < σ → OptionType.fromString s = none →
      black76_price F K T D σ (OptionTypeArg.ofString s) =
        Except.error (PricingError.invalidOptionType s)) := by
  refine ⟨fun hF => ?_, fun hF hK => ?_, fun hF hK hT => ?_, fun hF hK hT hσ => ?_,
    fun hF hK hT hσ hs => ?_⟩ <;> unfold black76_price
  · rw [if_pos hF]
  · rw [if_neg (not_le.mpr hF), if_pos hK]
  · rw [if_neg (not_le.mpr hF), if_neg (not_le.mpr hK), if_pos hT]
  · rw [if_neg (not_le.mpr hF), if_neg (not_le.mpr hK), if_neg (not_le.mpr hT), if_pos hσ]
  · rw [if_neg (not_le.mpr hF), if_neg (not_le.mpr hK), if_neg (not_le.mpr hT),
      if_neg (not_le.mpr hσ)]
    simp only [hs]

/-- Witness for C10 at the boundary-rejection inputs of the spec: with every
parameter invalid at once, the reported violation is the forward price. -/
theorem C10_validation_order_witness :
    (0:ℝ) ≤ 0 ∧ black76_price 0 (-5) 0 1 (-0.1) (OptionTypeArg.ofString "straddle") =
      Except.error (PricingError.invalidNumeric "Forward" 0) :=
  ⟨le_refl 0, (C10_validation_order 0 (-5) 0 1 (-0.1) "straddle").1 (le_refl 0)⟩

/-- Which violation an engine error identifies, together with the offending value. -/
def identifiesViolation (F K T σ : ℝ) (s : String) : PricingError → Prop
  | PricingError.invalidNumeric p v =>
      (p = "Forward" ∧ v = F ∧ F ≤ 0) ∨ (p = "Strike" ∧ v = K ∧ K ≤ 0) ∨
        (p = "DCF" ∧ v = T ∧ T ≤ 0) ∨ (p = "Volatility" ∧ v = σ ∧ σ ≤ 0)
  | PricingError.invalidOptionType v => v = s ∧ OptionType.fromString s = none

/-- C2: for every input violating a precondition (non-positive forward, strike,
dcf or volatility, or an unrecognized option-type string), black76_price fails
with a single error that identifies a violated parameter and carries the
offending value, and returns no result. -/
theorem C2_invalid_inputs_rejected (F K T D σ : ℝ) (s : String)
    (h : F ≤ 0 ∨ K ≤ 0 ∨ T ≤ 0 ∨ σ ≤ 0 ∨ OptionType.fromString s = none) :
    ∃ e, black76_price F K T D σ (OptionTypeArg.ofString s) = Except.error e ∧
      identifiesViolation F K T σ s e := by
  rcases le_or_lt F 0 with hF | hF
  · refine ⟨PricingError.invalidNumeric "Forward" F, ?_, Or.inl ⟨rfl, rfl, hF⟩⟩
    unfold black76_price
    rw [if_pos hF]
  rcases le_or_lt K 0 with hK | hK
  · refine ⟨PricingError.invalidNumeric "Strike" K, ?_, Or.inr (Or.inl ⟨rfl, rfl, hK⟩)⟩
    unfold black76_price
    rw [if_neg (not_le.mpr hF), if_pos hK]
  rcases le_or_lt T 0 with hT | hT
  · refine ⟨PricingError.invalidNumeric "DCF" T, ?_,
      Or.inr (Or.inr (Or.inl ⟨rfl, rfl, hT⟩))⟩
    unfold black76_price
    rw [if_neg (not_le.mpr hF), if_neg (not_le.mpr hK), if_pos hT]
  rcases le_or_lt σ 0 with hσ | hσ
  · refine ⟨PricingError.invalidNumeric "Volatility" σ, ?_,
      Or.inr (Or.inr (Or.inr ⟨rfl, rfl, hσ⟩))⟩
    unfold black76_price
    rw [if_neg (not_le.mpr hF), if_neg (not_le.mpr hK), if_neg (not_le.mpr hT), if_pos hσ]
  have hs : OptionType.fromString s = none := by
    rcases h with h | h | h | h | h
    · exact absurd h (not_le.mpr hF)
    · exact absurd h (not_le.mpr hK)
    · exact absurd h (not_le.mpr hT)
    · exact absurd h (not_le.mpr hσ)
    · exact h
  refine ⟨PricingError.invalidOptionType s, ?_, ⟨rfl, hs⟩⟩
  unfold black76_price
  rw [if_neg (not_le.mpr hF), if_neg (not_le.mpr hK), if_neg (not_le.mpr hT),
    if_neg (not_le.mpr hσ)]
  simp only [hs]

/-- Witness for C2 at the boundary-rejection inputs of the spec. -/
theorem C2_invalid_inputs_rejected_witness :
    ((0:ℝ) ≤ 0 ∨ (-5:ℝ) ≤ 0 ∨ (0:ℝ) ≤ 0 ∨ (-0.1:ℝ) ≤ 0 ∨
        OptionType.fromString "straddle" = none) ∧
      ∃ e, black76_price 0 (-5) 0 1 (-0.1) (OptionTypeArg.ofString "straddle") =
        Except.error e ∧ identifiesViolation 0 (-5) 0 (-0.1) "straddle" e :=
  ⟨Or.inl (le_refl 0),
    C2_invalid_inputs_rejected 0 (-5) 0 1 (-0.1) "straddle" (Or.inl (le_refl 0))⟩

/-- C3 counterexample: with df = -1 and every other parameter valid the engine
returns a result instead of failing, so it does not reject a non-positive
discount factor. -/
theorem C3_counterexample :
    exOk (black76_price 1 1 1 (-1) 1 (OptionTypeArg.ofType OptionType.CALL)) = true := by
  rw [black76_valid_eq 1 1 1 (-1) 1 OptionType.CALL (by norm_num) (by norm_num)
    (by norm_num) (by norm_num)]
  rfl

/-- C3 amended: the engine performs no discount-factor validation: for df ≤ 0 and
otherwise valid inputs it still returns the closed-form result; positivity of df
is imposed only by the boundary parameter contract of the tool. -/
theorem C3_engine_accepts_nonpositive_df (F K T D σ : ℝ) (t : OptionType)
    (hF : 0 < F) (hK : 0 < K) (hT : 0 < T) (hσ : 0 < σ) (_hD : D ≤ 0) :
    black76_price F K T D σ (OptionTypeArg.ofType t) =
      Except.ok (blackResult F K T D σ t) ∧ (∀ a : ToolArgs, schemaOk a → 0 < a.df) :=
  ⟨black76_valid_eq F K T D σ t hF hK hT hσ, fun _ ha => ha.2.2.1⟩

/-- Witness for the amended C3 at df = -1. -/
theorem C3_engine_accepts_nonpositive_df_witness :
    (-1:ℝ) ≤ 0 ∧ black76_price 1 1 1 (-1) 1 (OptionTypeArg.ofType OptionType.CALL) =
      Except.ok (blackResult 1 1 1 (-1) 1 OptionType.CALL) :=
  ⟨by norm_num, (C3_engine_accepts_nonpositive_df 1 1 1 (-1) 1 OptionType.CALL
    (by norm_num) (by norm_num) (by norm_num) (by norm_num) (by norm_num)).1⟩

/-- C7 counterexample: the string CALL is accepted and priced by the engine, but
the remote operation rejects it: it matches neither the case-sensitive parameter
pattern (call|put) nor the exact-value enum construction in the tool body. -/
theorem C7_counterexample :
    OptionType.fromString "CALL" = some OptionType.CALL ∧
      exOk (black76_price 1 1 1 1 1 (OptionTypeArg.ofString "CALL")) = true ∧
      OptionType.ofValue "CALL" = none ∧
      price_option_black76 ⟨1, 1, 1, 1, 1, "CALL"⟩ =
        ToolResponse.error (PricingError.invalidOptionType "CALL") ∧
      ¬ ("CALL" = "call" ∨ "CALL" = "put") := by
  refine ⟨by decide, ?_, by decide, ?_, by decide⟩
  · rw [black76_valid_string_eq 1 1 1 1 1 "CALL" OptionType.CALL (by norm_num) (by norm_num)
      (by norm_num) (by norm_num) (by decide)]
    rfl
  · unfold price_option_black76
    have hv : OptionType.ofValue "CALL" = none := by decide
    simp only [hv]

/-- C7 amended: engine-side parsing is case-insensitive and closed (any string
lower-casing to call or put is priced on that side, everything else raises), but
the remote operation accepts only the exact lowercase strings: its declared
pattern is case-sensitive and its body constructs the enum without lower-casing,
so every other string is rejected at the boundary. -/
theorem C7_case_sensitivity (F K T D σ : ℝ) (s : String)
    (hF : 0 < F) (hK : 0 < K) (hT : 0 < T) (hσ : 0 < σ) :
    (strLower s = "call" → black76_price F K T D σ (OptionTypeArg.ofString s) =
      Except.ok (blackResult F K T D σ OptionType.CALL)) ∧
    (strLower s = "put" → black76_price F K T D σ (OptionTypeArg.ofString s) =
      Except.ok (blackResult F K T D σ OptionType.PUT)) ∧
    (strLower s ≠ "call" → strLower s ≠ "put" →
      black76_price F K T D σ (OptionTypeArg.ofString s) =
        Except.error (PricingError.invalidOptionType s)) ∧
    (s ≠ "call" → s ≠ "put" →
      price_option_black76 ⟨F, K, T, D, σ, s⟩ =
        ToolResponse.error (PricingError.invalidOptionType s)) ∧
    ((s = "call" ∨ s = "put") →
      toolOk (price_option_black76 ⟨F, K, T, D, σ, s⟩) = true) := by
  refine ⟨fun h1 => ?_, fun h2 => ?_, fun h1 h2 => ?_, fun h1 h2 => ?_, fun h => ?_⟩
  · exact black76_valid_string_eq F K T D σ s OptionType.CALL hF hK hT hσ
      (by unfold OptionType.fromString; rw [if_pos h1])
  · refine black76_valid_string_eq F K T D σ s OptionType.PUT hF hK hT hσ ?_
    unfold OptionType.fromString
    rw [if_neg ?_, if_pos h2]
    rw [h2]
    decide
  · have hnone : OptionType.fromString s = none := by
      unfold OptionType.fromString
      rw [if_neg h1, if_neg h2]
    unfold black76_price
    rw [if_neg (not_le.mpr hF), if_neg (not_le.mpr hK), if_neg (not_le.mpr hT),
      if_neg (not_le.mpr hσ)]
    simp only [hnone]
  · have hnone : OptionType.ofValue s = none := by
      unfold OptionType.ofValue
      rw [if_neg h1, if_neg h2]
    unfold price_option_black76
    simp only [hnone]
  · rcases h with h | h
    · have hv : OptionType.ofValue s = some OptionType.CALL := by
        unfold OptionType.ofValue
        rw [if_pos h]
      unfold price_option_black76
      simp only [hv, black76_valid_eq F K T D σ OptionType.CALL hF hK hT hσ]
      rfl
    · have hv : OptionType.ofValue s = some OptionType.PUT := by
        unfold OptionType.ofValue
        rw [if_neg ?_, if_pos h]
        rw [h]
        decide
      unfold price_option_black76
      simp only [hv, black76_valid_eq F K T D σ OptionType.PUT hF hK hT hσ]
      rfl

/-- Witness for the amended C7: the engine prices the mixed-case string Call as a
call. -/
theorem C7_case_sensitivity_witness :
    (0:ℝ) < 1 ∧ black76_price 1 1 1 1 1 (OptionTypeArg.ofString "Call") =
      Except.ok (blackResult 1 1 1 1 1 OptionType.CALL) :=
  ⟨by norm_num, (C7_case_sensitivity 1 1 1 1 1 "Call" (by norm_num) (by norm_num)
    (by norm_num) (by norm_num)).1 (by decide)⟩

/-- C9: the boundary is total: every invocation yields either the success record
or an error record, every engine error is converted into the error record with the
same message content, and an enum-construction failure in the body is likewise
caught and converted; nothing escapes to the transport layer. -/
theorem C9_boundary_never_raises (a : ToolArgs) :
    (toolOk (price_option_black76 a) = true ∨
      ∃ e, price_option_black76 a = ToolResponse.error e) ∧
    (∀ t e, OptionType.ofValue a.option_type = some t →
      black76_price a.forward_price a.strike a.dcf a.df a.implied_volatility
          (OptionTypeArg.ofType t) = Except.error e →
      price_option_black76 a = ToolResponse.error e) ∧
    (OptionType.ofValue a.option_type = none →
      price_option_black76 a =
        ToolResponse.error (PricingError.invalidOptionType a.option_type)) := by
  refine ⟨?_, fun t e ht he => ?_, fun hn => ?_⟩
  · rcases hv : OptionType.ofValue a.option_type with _ | t
    · refine Or.inr ⟨PricingError.invalidOptionType a.option_type, ?_⟩
      unfold price_option_black76
      simp only [hv]
    · rcases hb : black76_price a.forward_price a.strike a.dcf a.df a.implied_volatility
          (OptionTypeArg.ofType t) with e | r
      · refine Or.inr ⟨e, ?_⟩
        unfold price_option_black76
        simp only [hv, hb]
      · refine Or.inl ?_
        unfold price_option_black76
        simp only [hv, hb, toolOk]
  · unfold price_option_black76
    simp only [ht, he]
  · unfold price_option_black76
    simp only [hn]

/-- Witness for C9: the in-body enum failure on the string straddle is returned as
the error record. -/
theorem C9_boundary_never_raises_witness :
    price_option_black76 ⟨1, 1, 1, 1, 1, "straddle"⟩ =
      ToolResponse.error (PricingError.invalidOptionType "straddle") :=
  (C9_boundary_never_raises ⟨1, 1, 1, 1, 1, "straddle"⟩).2.2 (by decide)

theorem gauss_continuous : Continuous fun t : ℝ => Real.exp (-t ^ 2) := by
  continuity

theorem gauss_integrable : Integrable fun t : ℝ => Real.exp (-t ^ 2) := by
  have h := integrable_exp_neg_mul_sq (show (0:ℝ) < 1 by norm_num)
  simpa using h

theorem erf_neg (x : ℝ) : erf (-x) = -erf x := by
  unfold erf
  rw [← mul_neg]
  congr 1
  have h1 : (∫ t in (0:ℝ)..(-x), Real.exp (-t ^ 2)) =
      ∫ t in (0:ℝ)..(-x), Real.exp (-(-t) ^ 2) := by
    simp [neg_sq]
  rw [h1, intervalIntegral.integral_comp_neg fun t => Real.exp (-t ^ 2)]
  simp only [neg_neg, neg_zero]
  exact intervalIntegral.integral_symm 0 x

theorem erf_lt_erf {x y : ℝ} (hxy : x < y) : erf x < erf y := by
  unfold erf
  have hc : (0:ℝ) < 2 / Real.sqrt Real.pi := by positivity
  apply mul_lt_mul_of_pos_left ?_ hc
  have hsub : (∫ t in (0:ℝ)..y, Real.exp (-t ^ 2)) - ∫ t in (0:ℝ)..x, Real.exp (-t ^ 2) =
      ∫ t in x..y, Real.exp (-t ^ 2) :=
    intervalIntegral.integral_interval_sub_left gauss_integrable.intervalIntegrable
      gauss_integrable.intervalIntegrable
  have hpos : 0 < ∫ t in x..y, Real.exp (-t ^ 2) :=
    intervalIntegral.intervalIntegral_pos_of_pos gauss_integrable.intervalIntegrable
      (fun t => Real.exp_pos _) hxy
  linarith

theorem erf_strictMono : StrictMono erf := fun _ _ h => erf_lt_erf h

theorem hasDerivAt_erf (x : ℝ) :
    HasDerivAt erf (2 / Real.sqrt Real.pi * Real.exp (-x ^ 2)) x := by
  have h : HasDerivAt (fun u : ℝ => ∫ t in (0:ℝ)..u, Real.exp (-t ^ 2))
      (Real.exp (-x ^ 2)) x :=
    (gauss_continuous.integral_hasStrictDerivAt 0 x).hasDerivAt
  exact HasDerivAt.const_mul (2 / Real.sqrt Real.pi) h

theorem continuous_erf : Continuous erf :=
  continuous_iff_continuousAt.mpr fun x => (hasDerivAt_erf x).continuousAt

theorem tendsto_erf_atTop : Tendsto erf atTop (nhds 1) := by
  have h1 : Tendsto (fun u : ℝ => ∫ t in (0:ℝ)..u, Real.exp (-t ^ 2)) atTop
      (nhds (∫ t in Ioi (0:ℝ), Real.exp (-t ^ 2))) :=
    intervalIntegral_tendsto_integral_Ioi 0 gauss_integrable.integrableOn tendsto_id
  have h2 : (∫ t in Ioi (0:ℝ), Real.exp (-t ^ 2)) = Real.sqrt Real.pi / 2 := by
    have h := integral_gaussian_Ioi 1
    simpa using h
  have h3 := h1.const_mul (2 / Real.sqrt Real.pi)
  rw [h2] at h3
  have h4 : 2 / Real.sqrt Real.pi * (Real.sqrt Real.pi / 2) = 1 := by
    have hπ : Real.sqrt Real.pi ≠ 0 := by positivity
    field_simp
  rw [h4] at h3
  exact h3

theorem tendsto_erf_atBot : Tendsto erf atBot (nhds (-1)) := by
  have h1 : Tendsto (fun x : ℝ => -x) atBot atTop := tendsto_neg_atBot_atTop
  have h2 := (tendsto_erf_atTop.comp h1).neg
  have h3 : Tendsto (fun x : ℝ => -erf (-x)) atBot (nhds (-1)) := by simpa using h2
  refine h3.congr fun x => ?_
  rw [erf_neg, neg_neg]

theorem norm_cdf_neg (x : ℝ) : norm_cdf (-x) = 1 - norm_cdf x := by
  unfold norm_cdf
  rw [neg_div, erf_neg]
  ring

theorem norm_cdf_strictMono : StrictMono norm_cdf := by
  intro x y hxy
  unfold norm_cdf
  have h2 : (0:ℝ) < Real.sqrt 2 := by positivity
  have h : erf (x / Real.sqrt 2) < erf (y / Real.sqrt 2) :=
    erf_lt_erf ((div_lt_div_iff_of_pos_right h2).mpr hxy)
  linarith

theorem tendsto_norm_cdf_atBot : Tendsto norm_cdf atBot (nhds 0) := by
  have h2 : (0:ℝ) < Real.sqrt 2 := by positivity
  have hdiv : Tendsto (fun x : ℝ => x / Real.sqrt 2) atBot atBot :=
    tendsto_id.atBot_div_const h2
  have h3 := ((tendsto_erf_atBot.comp hdiv).const_add 1).const_mul (0.5 : ℝ)
  have hv : (0.5 : ℝ) * (1 + -1) = 0 := by norm_num
  rw [hv] at h3
  exact h3

theorem norm_cdf_nonneg (x : ℝ) : 0 ≤ norm_cdf x :=
  le_of_tendsto tendsto_norm_cdf_atBot
    (eventually_atBot.mpr ⟨x, fun _ hy => norm_cdf_strictMono.monotone hy⟩)

theorem norm_cdf_pos (x : ℝ) : 0 < norm_cdf x :=
  lt_of_le_of_lt (norm_cdf_nonneg (x - 1)) (norm_cdf_strictMono (by linarith))

theorem norm_cdf_lt_one (x : ℝ) : norm_cdf x < 1 := by
  have h := norm_cdf_neg x
  have h2 := norm_cdf_pos (-x)
  linarith

theorem norm_pdf_pos (x : ℝ) : 0 < norm_pdf x := by
  unfold norm_pdf
  positivity

theorem hasDerivAt_norm_cdf (x : ℝ) : HasDerivAt norm_cdf (norm_pdf x) x := by
  have h2 : (0:ℝ) < Real.sqrt 2 := by positivity
  have hπ : (0:ℝ) < Real.sqrt Real.pi := by positivity
  have hinner : HasDerivAt (fun y : ℝ => y / Real.sqrt 2) (1 / Real.sqrt 2) x := by
    simpa using (hasDerivAt_id x).div_const (Real.sqrt 2)
  have houter := (hasDerivAt_erf (x / Real.sqrt 2)).comp x hinner
  have h := HasDerivAt.const_mul (0.5 : ℝ) (houter.const_add 1)
  have heq : (0.5 : ℝ) * (2 / Real.sqrt Real.pi * Real.exp (-(x / Real.sqrt 2) ^ 2) *
      (1 / Real.sqrt 2)) = norm_pdf x := by
    unfold norm_pdf
    have hsq : (x / Real.sqrt 2) ^ 2 = x ^ 2 / 2 := by
      rw [div_pow, Real.sq_sqrt (by norm_num : (0:ℝ) ≤ 2)]
    rw [hsq]
    have hexp : Real.exp (-(x ^ 2) / 2) = Real.exp (-0.5 * x * x) := by
      congr 1
      ring
    have hsplit : Real.sqrt (2 * Real.pi) = Real.sqrt 2 * Real.sqrt Real.pi :=
      Real.sqrt_mul (by norm_num) Real.pi
    rw [hsplit, ← hexp]
    rw [neg_div]
    field_simp
    ring
  rw [heq] at h
  exact h

theorem continuous_norm_cdf : Continuous norm_cdf :=
  continuous_iff_continuousAt.mpr fun x => (hasDerivAt_norm_cdf x).continuousAt

/-- d1 as a function of the total volatility s = σ·sqrtT. -/
noncomputable def d1s (F K s : ℝ) : ℝ :=
  (Real.log (F / K) + s ^ 2 / 2) / s

/-- The undiscounted Black-76 spread F·Φ(x) − K·Φ(x − s) as a function of the
evaluation point; at x = d1s it equals the undiscounted call price. -/
noncomputable def bsGap (F K s x : ℝ) : ℝ :=
  F * norm_cdf x - K * norm_cdf (x - s)

theorem d1_eq_d1s (F K T σ : ℝ) (hT : 0 < T) :
    d1 F K T σ = d1s F K (σ * Real.sqrt T) := by
  unfold d1 d1s
  rw [mul_pow, Real.sq_sqrt hT.le]
  ring

theorem d2_eq_d1s (F K T σ : ℝ) (hT : 0 < T) :
    d2 F K T σ = d1s F K (σ * Real.sqrt T) - σ * Real.sqrt T := by
  unfold d2
  rw [d1_eq_d1s F K T σ hT]

theorem neg_d2_eq_d1s (F K T σ : ℝ) (hF : 0 < F) (hK : 0 < K) (hT : 0 < T) (hσ : 0 < σ) :
    -d2 F K T σ = d1s K F (σ * Real.sqrt T) := by
  have hs : (0:ℝ) < σ * Real.sqrt T := mul_pos hσ (Real.sqrt_pos.mpr hT)
  rw [d2_eq_d1s F K T σ hT]
  unfold d1s
  rw [Real.log_div hK.ne' hF.ne', Real.log_div hF.ne' hK.ne']
  field_simp
  ring

theorem neg_d1_eq_d1s (F K T σ : ℝ) (hF : 0 < F) (hK : 0 < K) (hT : 0 < T) (hσ : 0 < σ) :
    -d1 F K T σ = d1s K F (σ * Real.sqrt T) - σ * Real.sqrt T := by
  have hs : (0:ℝ) < σ * Real.sqrt T := mul_pos hσ (Real.sqrt_pos.mpr hT)
  rw [d1_eq_d1s F K T σ hT]
  unfold d1s
  rw [Real.log_div hK.ne' hF.ne', Real.log_div hF.ne' hK.ne']
  field_simp
  ring

theorem hasDerivAt_bsGap (F K s x : ℝ) :
    HasDerivAt (bsGap F K s) (F * norm_pdf x - K * norm_pdf (x - s)) x := by
  have h1 : HasDerivAt (fun y : ℝ => F * norm_cdf y) (F * norm_pdf x) x :=
    HasDerivAt.const_mul F (hasDerivAt_norm_cdf x)
  have hin : HasDerivAt (fun y : ℝ => y - s) 1 x := (hasDerivAt_id x).sub_const s
  have h2 : HasDerivAt (fun y : ℝ => norm_cdf (y - s)) (norm_pdf (x - s)) x := by
    have h := (hasDerivAt_norm_cdf (x - s)).comp x hin
    simpa using h
  exact h1.sub (HasDerivAt.const_mul K h2)

theorem bs_deriv_pos (F K s : ℝ) (hF : 0 < F) (hK : 0 < K) (hs : 0 < s) {x : ℝ}
    (hx : x < d1s F K s) : 0 < F * norm_pdf x - K * norm_pdf (x - s) := by
  rw [sub_pos]
  unfold d1s at hx
  rw [Real.log_div hF.ne' hK.ne'] at hx
  have hxs : x * s < Real.log F - Real.log K + s ^ 2 / 2 := (lt_div_iff₀ hs).mp hx
  have key : Real.log K + -0.5 * (x - s) * (x - s) < Real.log F + -0.5 * x * x := by
    nlinarith [hxs]
  have e1 : K * norm_pdf (x - s) =
      Real.exp (Real.log K + -0.5 * (x - s) * (x - s)) / Real.sqrt (2 * Real.pi) := by
    unfold norm_pdf
    rw [Real.exp_add, Real.exp_log hK, mul_div_assoc]
  have e2 : F * norm_pdf x =
      Real.exp (Real.log F + -0.5 * x * x) / Real.sqrt (2 * Real.pi) := by
    unfold norm_pdf
    rw [Real.exp_add, Real.exp_log hF, mul_div_assoc]
  rw [e1, e2]
  have hsq : (0:ℝ) < Real.sqrt (2 * Real.pi) := by positivity
  exact (div_lt_div_iff_of_pos_right hsq).mpr (Real.exp_lt_exp.mpr key)

theorem bs_deriv_neg (F K s : ℝ) (hF : 0 < F) (hK : 0 < K) (hs : 0 < s) {x : ℝ}
    (hx : d1s F K s < x) : F * norm_pdf x - K * norm_pdf (x - s) < 0 := by
  rw [sub_neg]
  unfold d1s at hx
  rw [Real.log_div hF.ne' hK.ne'] at hx
  have hxs : Real.log F - Real.log K + s ^ 2 / 2 < x * s := (div_lt_iff₀ hs).mp hx
  have key : Real.log F + -0.5 * x * x < Real.log K + -0.5 * (x - s) * (x - s) := by
    nlinarith [hxs]
  have e1 : K * norm_pdf (x - s) =
      Real.exp (Real.log K + -0.5 * (x - s) * (x - s)) / Real.sqrt (2 * Real.pi) := by
    unfold norm_pdf
    rw [Real.exp_add, Real.exp_log hK, mul_div_assoc]
  have e2 : F * norm_pdf x =
      Real.exp (Real.log F + -0.5 * x * x) / Real.sqrt (2 * Real.pi) := by
    unfold norm_pdf
    rw [Real.exp_add, Real.exp_log hF, mul_div_assoc]
  rw [e1, e2]
  have hsq : (0:ℝ) < Real.sqrt (2 * Real.pi) := by positivity
  exact (div_lt_div_iff_of_pos_right hsq).mpr (Real.exp_lt_exp.mpr key)

theorem bsGap_le_max (F K s : ℝ) (hF : 0 < F) (hK : 0 < K) (hs : 0 < s) (x : ℝ) :
    bsGap F K s x ≤ bsGap F K s (d1s F K s) := by
  have hdiff : Differentiable ℝ (bsGap F K s) := fun y =>
    (hasDerivAt_bsGap F K s y).differentiableAt
  have hderiv : ∀ y, deriv (bsGap F K s) y = F * norm_pdf y - K * norm_pdf (y - s) :=
    fun y => (hasDerivAt_bsGap F K s y).deriv
  rcases le_total x (d1s F K s) with hx | hx
  · have hmono : MonotoneOn (bsGap F K s) (Iic (d1s F K s)) := by
      refine monotoneOn_of_deriv_nonneg (convex_Iic _) hdiff.continuous.continuousOn
        hdiff.differentiableOn ?_
      intro y hy
      rw [interior_Iic] at hy
      rw [hderiv y]
      exact (bs_deriv_pos F K s hF hK hs hy).le
    exact hmono (mem_Iic.mpr hx) (mem_Iic.mpr le_rfl) hx
  · have hanti : AntitoneOn (bsGap F K s) (Ici (d1s F K s)) := by
      refine antitoneOn_of_deriv_nonpos (convex_Ici _) hdiff.continuous.continuousOn
        hdiff.differentiableOn ?_
      intro y hy
      rw [interior_Ici] at hy
      rw [hderiv y]
      exact (bs_deriv_neg F K s hF hK hs hy).le
    exact hanti (mem_Ici.mpr le_rfl) (mem_Ici.mpr hx) hx

theorem tendsto_bsGap_atBot (F K s : ℝ) : Tendsto (bsGap F K s) atBot (nhds 0) := by
  have h1 := tendsto_norm_cdf_atBot.const_mul F
  have hsub : Tendsto (fun x : ℝ => x - s) atBot atBot := by
    have hid : Tendsto (id : ℝ → ℝ) atBot atBot := tendsto_id
    have h4 : Tendsto (fun x : ℝ => x + -s) atBot atBot :=
      tendsto_atBot_add_const_right atBot (-s) hid
    simpa [sub_eq_add_neg] using h4
  have h2 := (tendsto_norm_cdf_atBot.comp hsub).const_mul K
  have h3 := h1.sub h2
  simpa [bsGap, Function.comp] using h3

theorem bsGap_max_nonneg (F K s : ℝ) (hF : 0 < F) (hK : 0 < K) (hs : 0 < s) :
    0 ≤ bsGap F K s (d1s F K s) :=
  le_of_tendsto (tendsto_bsGap_atBot F K s)
    (Filter.Eventually.of_forall fun x => bsGap_le_max F K s hF hK hs x)

theorem bsGap_lt_of_s_lt (F K : ℝ) {s1 s2 : ℝ} (hK : 0 < K) (hss : s1 < s2) (x : ℝ) :
    bsGap F K s1 x < bsGap F K s2 x := by
  unfold bsGap
  have h := norm_cdf_strictMono (show x - s2 < x - s1 by linarith)
  have h2 := mul_lt_mul_of_pos_left h hK
  linarith

theorem bsGap_lt_of_F_lt (K s : ℝ) {F1 F2 : ℝ} (hFF : F1 < F2) (x : ℝ) :
    bsGap F1 K s x < bsGap F2 K s x := by
  unfold bsGap
  have h := mul_lt_mul_of_pos_right hFF (norm_cdf_pos x)
  linarith

theorem call_price_eq_gap (F K T D σ : ℝ) (hT : 0 < T) :
    (blackResult F K T D σ OptionType.CALL).price =
      D * bsGap F K (σ * Real.sqrt T) (d1s F K (σ * Real.sqrt T)) := by
  show D * (F * norm_cdf (d1 F K T σ) - K * norm_cdf (d2 F K T σ)) = _
  rw [d1_eq_d1s F K T σ hT, d2_eq_d1s F K T σ hT]
  rfl

theorem put_price_eq_gap (F K T D σ : ℝ) (hF : 0 < F) (hK : 0 < K) (hT : 0 < T)
    (hσ : 0 < σ) :
    (blackResult F K T D σ OptionType.PUT).price =
      D * bsGap K F (σ * Real.sqrt T) (d1s K F (σ * Real.sqrt T)) := by
  show D * (K * norm_cdf (-d2 F K T σ) - F * norm_cdf (-d1 F K T σ)) = _
  rw [neg_d2_eq_d1s F K T σ hF hK hT hσ, neg_d1_eq_d1s F K T σ hF hK hT hσ]
  rfl

/-- C1: for every valid input the engine returns exactly the closed-form Black-76
result of the specification: price D·(F·Φ(d1) − K·Φ(d2)) and delta D·Φ(d1) for a
call, price D·(K·Φ(−d2) − F·Φ(−d1)) and delta −D·Φ(−d1) for a put, and the shared
gamma D·φ(d1)/(F·σ·sqrtT) and vega D·F·φ(d1)·sqrtT/100. -/
theorem C1_closed_form (F K T D σ : ℝ)
    (hF : 0 < F) (hK : 0 < K) (hT : 0 < T) (hσ : 0 < σ) :
    black76_price F K T D σ (OptionTypeArg.ofType OptionType.CALL) =
      Except.ok ⟨D * (F * norm_cdf (d1 F K T σ) - K * norm_cdf (d2 F K T σ)),
        D * norm_cdf (d1 F K T σ),
        D * norm_pdf (d1 F K T σ) / (F * σ * Real.sqrt T),
        D * F * norm_pdf (d1 F K T σ) * Real.sqrt T / 100⟩ ∧
    black76_price F K T D σ (OptionTypeArg.ofType OptionType.PUT) =
      Except.ok ⟨D * (K * norm_cdf (-d2 F K T σ) - F * norm_cdf (-d1 F K T σ)),
        -D * norm_cdf (-d1 F K T σ),
        D * norm_pdf (d1 F K T σ) / (F * σ * Real.sqrt T),
        D * F * norm_pdf (d1 F K T σ) * Real.sqrt T / 100⟩ :=
  ⟨black76_valid_eq F K T D σ OptionType.CALL hF hK hT hσ,
    black76_valid_eq F K T D σ OptionType.PUT hF hK hT hσ⟩

/-- Witness for C1 at F = K = T = D = σ = 1. -/
theorem C1_closed_form_witness :
    (0:ℝ) < 1 ∧
      black76_price 1 1 1 1 1 (OptionTypeArg.ofType OptionType.CALL) =
        Except.ok ⟨1 * (1 * norm_cdf (d1 1 1 1 1) - 1 * norm_cdf (d2 1 1 1 1)),
          1 * norm_cdf (d1 1 1 1 1),
          1 * norm_pdf (d1 1 1 1 1) / (1 * 1 * Real.sqrt 1),
          1 * 1 * norm_pdf (d1 1 1 1 1) * Real.sqrt 1 / 100⟩ :=
  ⟨by norm_num, (C1_closed_form 1 1 1 1 1 (by norm_num) (by norm_num) (by norm_num)
    (by norm_num)).1⟩

/-- C4: put-call parity holds exactly over the reals: for shared valid inputs the
call price minus the put price returned by black76_price equals D·(F − K). -/
theorem C4_put_call_parity (F K T D σ : ℝ)
    (hF : 0 < F) (hK : 0 < K) (hT : 0 < T) (hσ : 0 < σ)
    (rc rp : SPXOptionResult)
    (hc : black76_price F K T D σ (OptionTypeArg.ofType OptionType.CALL) = Except.ok rc)
    (hp : black76_price F K T D σ (OptionTypeArg.ofType OptionType.PUT) = Except.ok rp) :
    rc.price - rp.price = D * (F - K) := by
  rw [black76_valid_eq F K T D σ OptionType.CALL hF hK hT hσ] at hc
  rw [black76_valid_eq F K T D σ OptionType.PUT hF hK hT hσ] at hp
  obtain rfl := Except.ok.inj hc
  obtain rfl := Except.ok.inj hp
  have h1 := norm_cdf_neg (d1 F K T σ)
  have h2 := norm_cdf_neg (d2 F K T σ)
  show D * (F * norm_cdf (d1 F K T σ) - K * norm_cdf (d2 F K T σ)) -
      D * (K * norm_cdf (-d2 F K T σ) - F * norm_cdf (-d1 F K T σ)) = D * (F - K)
  rw [h1, h2]
  ring

/-- Witness for C4 at F = 1, K = 2, T = D = σ = 1. -/
theorem C4_put_call_parity_witness :
    (0:ℝ) < 1 ∧ (blackResult 1 2 1 1 1 OptionType.CALL).price -
      (blackResult 1 2 1 1 1 OptionType.PUT).price = 1 * (1 - 2) :=
  ⟨by norm_num, C4_put_call_parity 1 2 1 1 1 (by norm_num) (by norm_num) (by norm_num)
    (by norm_num) (blackResult 1 2 1 1 1 OptionType.CALL)
    (blackResult 1 2 1 1 1 OptionType.PUT)
    (black76_valid_eq 1 2 1 1 1 OptionType.CALL (by norm_num) (by norm_num) (by norm_num)
      (by norm_num))
    (black76_valid_eq 1 2 1 1 1 OptionType.PUT (by norm_num) (by norm_num) (by norm_num)
      (by norm_num))⟩

/-- C5: result invariants on valid inputs: non-negative price and gamma for both
sides, call delta in [0, D], put delta in [−D, 0], and gamma and vega identical
for call and put given identical inputs. -/
theorem C5_result_invariants (F K T D σ : ℝ)
    (hF : 0 < F) (hK : 0 < K) (hT : 0 < T) (hσ : 0 < σ) (hD : 0 < D) :
    (∀ r, black76_price F K T D σ (OptionTypeArg.ofType OptionType.CALL) = Except.ok r →
      0 ≤ r.price ∧ 0 ≤ r.gamma ∧ 0 ≤ r.delta ∧ r.delta ≤ D) ∧
    (∀ r, black76_price F K T D σ (OptionTypeArg.ofType OptionType.PUT) = Except.ok r →
      0 ≤ r.price ∧ 0 ≤ r.gamma ∧ -D ≤ r.delta ∧ r.delta ≤ 0) ∧
    (∀ rc rp, black76_price F K T D σ (OptionTypeArg.ofType OptionType.CALL) = Except.ok rc →
      black76_price F K T D σ (OptionTypeArg.ofType OptionType.PUT) = Except.ok rp →
      rc.gamma = rp.gamma ∧ rc.vega = rp.vega) := by
  have hsT : (0:ℝ) < Real.sqrt T := Real.sqrt_pos.mpr hT
  have hs : (0:ℝ) < σ * Real.sqrt T := mul_pos hσ hsT
  have hgamma : 0 ≤ D * norm_pdf (d1 F K T σ) / (F * σ * Real.sqrt T) := by
    apply div_nonneg (mul_nonneg hD.le (norm_pdf_pos _).le)
    positivity
  refine ⟨fun r hr => ?_, fun r hr => ?_, fun rc rp hrc hrp => ?_⟩
  · rw [black76_valid_eq F K T D σ OptionType.CALL hF hK hT hσ] at hr
    obtain rfl := Except.ok.inj hr
    refine ⟨?_, hgamma, ?_, ?_⟩
    · rw [call_price_eq_gap F K T D σ hT]
      exact mul_nonneg hD.le (bsGap_max_nonneg F K (σ * Real.sqrt T) hF hK hs)
    · exact mul_nonneg hD.le (norm_cdf_pos _).le
    · show D * norm_cdf (d1 F K T σ) ≤ D
      nlinarith [norm_cdf_lt_one (d1 F K T σ), norm_cdf_pos (d1 F K T σ)]
  · rw [black76_valid_eq F K T D σ OptionType.PUT hF hK hT hσ] at hr
    obtain rfl := Except.ok.inj hr
    refine ⟨?_, hgamma, ?_, ?_⟩
    · rw [put_price_eq_gap F K T D σ hF hK hT hσ]
      exact mul_nonneg hD.le (bsGap_max_nonneg K F (σ * Real.sqrt T) hK hF hs)
    · show -D ≤ -D * norm_cdf (-d1 F K T σ)
      nlinarith [norm_cdf_lt_one (-d1 F K T σ), norm_cdf_pos (-d1 F K T σ)]
    · show -D * norm_cdf (-d1 F K T σ) ≤ 0
      nlinarith [norm_cdf_pos (-d1 F K T σ)]
  · rw [black76_valid_eq F K T D σ OptionType.CALL hF hK hT hσ] at hrc
    rw [black76_valid_eq F K T D σ OptionType.PUT hF hK hT hσ] at hrp
    obtain rfl := Except.ok.inj hrc
    obtain rfl := Except.ok.inj hrp
    exact ⟨rfl, rfl⟩

/-- Witness for C5: call invariants at F = K = T = D = σ = 1. -/
theorem C5_result_invariants_witness :
    (0:ℝ) < 1 ∧ (0 ≤ (blackResult 1 1 1 1 1 OptionType.CALL).price ∧
      0 ≤ (blackResult 1 1 1 1 1 OptionType.CALL).gamma ∧
      0 ≤ (blackResult 1 1 1 1 1 OptionType.CALL).delta ∧
      (blackResult 1 1 1 1 1 OptionType.CALL).delta ≤ 1) :=
  ⟨by norm_num, (C5_result_invariants 1 1 1 1 1 (by norm_num) (by norm_num) (by norm_num)
    (by norm_num) (by norm_num)).1 (blackResult 1 1 1 1 1 OptionType.CALL)
    (black76_valid_eq 1 1 1 1 1 OptionType.CALL (by norm_num) (by norm_num) (by norm_num)
      (by norm_num))⟩

/-- C6: monotonicity of the call on valid inputs: vega and call delta are strictly
positive, the call price is strictly increasing in the implied volatility, and
strictly increasing in the forward price. -/
theorem C6_call_monotonicity (F K T D σ : ℝ)
    (hF : 0 < F) (hK : 0 < K) (hT : 0 < T) (hσ : 0 < σ) (hD : 0 < D) :
    (∀ r, black76_price F K T D σ (OptionTypeArg.ofType OptionType.CALL) = Except.ok r →
      0 < r.vega ∧ 0 < r.delta) ∧
    (∀ σ2 r r2, σ < σ2 →
      black76_price F K T D σ (OptionTypeArg.ofType OptionType.CALL) = Except.ok r →
      black76_price F K T D σ2 (OptionTypeArg.ofType OptionType.CALL) = Except.ok r2 →
      r.price < r2.price) ∧
    (∀ F2 r r2, F < F2 →
      black76_price F K T D σ (OptionTypeArg.ofType OptionType.CALL) = Except.ok r →
      black76_price F2 K T D σ (OptionTypeArg.ofType OptionType.CALL) = Except.ok r2 →
      r.price < r2.price) := by
  have hsT : (0:ℝ) < Real.sqrt T := Real.sqrt_pos.mpr hT
  have hs : (0:ℝ) < σ * Real.sqrt T := mul_pos hσ hsT
  refine ⟨fun r hr => ?_, fun σ2 r r2 hσ2 hr hr2 => ?_, fun F2 r r2 hF2 hr hr2 => ?_⟩
  · rw [black76_valid_eq F K T D σ OptionType.CALL hF hK hT hσ] at hr
    obtain rfl := Except.ok.inj hr
    constructor
    · show 0 < D * F * norm_pdf (d1 F K T σ) * Real.sqrt T / 100
      apply div_pos _ (by norm_num)
      exact mul_pos (mul_pos (mul_pos hD hF) (norm_pdf_pos _)) hsT
    · exact mul_pos hD (norm_cdf_pos _)
  · rw [black76_valid_eq F K T D σ OptionType.CALL hF hK hT hσ] at hr
    rw [black76_valid_eq F K T D σ2 OptionType.CALL hF hK hT (hσ.trans hσ2)] at hr2
    obtain rfl := Except.ok.inj hr
    obtain rfl := Except.ok.inj hr2
    rw [call_price_eq_gap F K T D σ hT, call_price_eq_gap F K T D σ2 hT]
    apply mul_lt_mul_of_pos_left _ hD
    have hs12 : σ * Real.sqrt T < σ2 * Real.sqrt T := mul_lt_mul_of_pos_right hσ2 hsT
    have hs2 : (0:ℝ) < σ2 * Real.sqrt T := mul_pos (hσ.trans hσ2) hsT
    calc bsGap F K (σ * Real.sqrt T) (d1s F K (σ * Real.sqrt T))
        < bsGap F K (σ2 * Real.sqrt T) (d1s F K (σ * Real.sqrt T)) :=
          bsGap_lt_of_s_lt F K hK hs12 _
      _ ≤ bsGap F K (σ2 * Real.sqrt T) (d1s F K (σ2 * Real.sqrt T)) :=
          bsGap_le_max F K (σ2 * Real.sqrt T) hF hK hs2 _
  · rw [black76_valid_eq F K T D σ OptionType.CALL hF hK hT hσ] at hr
    rw [black76_valid_eq F2 K T D σ OptionType.CALL (hF.trans hF2) hK hT hσ] at hr2
    obtain rfl := Except.ok.inj hr
    obtain rfl := Except.ok.inj hr2
    rw [call_price_eq_gap F K T D σ hT, call_price_eq_gap F2 K T D σ hT]
    apply mul_lt_mul_of_pos_left _ hD
    calc bsGap F K (σ * Real.sqrt T) (d1s F K (σ * Real.sqrt T))
        < bsGap F2 K (σ * Real.sqrt T) (d1s F K (σ * Real.sqrt T)) :=
          bsGap_lt_of_F_lt K (σ * Real.sqrt T) hF2 _
      _ ≤ bsGap F2 K (σ * Real.sqrt T) (d1s F2 K (σ * Real.sqrt T)) :=
          bsGap_le_max F2 K (σ * Real.sqrt T) (hF.trans hF2) hK hs _

/-- Witness for C6: the call price at σ = 2 exceeds the call price at σ = 1 for
F = 1, K = 2, T = D = 1. -/
theorem C6_call_monotonicity_witness :
    (1:ℝ) < 2 ∧ (blackResult 1 2 1 1 1 OptionType.CALL).price <
      (blackResult 1 2 1 1 2 OptionType.CALL).price :=
  ⟨by norm_num, (C6_call_monotonicity 1 2 1 1 1 (by norm_num) (by norm_num) (by norm_num)
    (by norm_num) (by norm_num)).2.1 2 (blackResult 1 2 1 1 1 OptionType.CALL)
    (blackResult 1 2 1 1 2 OptionType.CALL) (by norm_num)
    (black76_valid_eq 1 2 1 1 1 OptionType.CALL (by norm_num) (by norm_num) (by norm_num)
      (by norm_num))
    (black76_valid_eq 1 2 1 1 2 OptionType.CALL (by norm_num) (by norm_num) (by norm_num)
      (by norm_num))⟩

/-- C8: rounding is applied only at serialization: to_dict at the source default of
4 decimals rounds price, delta and vega to 4 places, gamma to 6 and dollar_price =
price × 100 to 2; the successful remote response computes premium, delta, gamma and
vega_per_1pct_usd = vega × 100 by rounding the unrounded closed-form engine outputs
to 2, 4, 6 and 2 places respectively. -/
theorem C8_rounding_contract :
    (∀ r : SPXOptionResult, r.to_dict 4 =
      ⟨pyRound r.price 4, pyRound (r.price * 100) 2, pyRound r.delta 4,
        pyRound r.gamma 6, pyRound r.vega 4⟩) ∧
    (∀ F K T D σ : ℝ, 0 < F → 0 < K → 0 < T → 0 < σ →
      price_option_black76 ⟨F, K, T, D, σ, "call"⟩ =
        ToolResponse.success "CALL" F K
          (pyRound (blackResult F K T D σ OptionType.CALL).price 2)
          (pyRound (blackResult F K T D σ OptionType.CALL).delta 4)
          (pyRound (blackResult F K T D σ OptionType.CALL).gamma 6)
          (pyRound ((blackResult F K T D σ OptionType.CALL).vega * 100) 2) ∧
      price_option_black76 ⟨F, K, T, D, σ, "put"⟩ =
        ToolResponse.success "PUT" F K
          (pyRound (blackResult F K T D σ OptionType.PUT).price 2)
          (pyRound (blackResult F K T D σ OptionType.PUT).delta 4)
          (pyRound (blackResult F K T D σ OptionType.PUT).gamma 6)
          (pyRound ((blackResult F K T D σ OptionType.PUT).vega * 100) 2)) := by
  refine ⟨fun r => rfl, fun F K T D σ hF hK hT hσ => ⟨?_, ?_⟩⟩
  · have hv : OptionType.ofValue "call" = some OptionType.CALL := by decide
    have hu : strUpper "call" = "CALL" := by decide
    unfold price_option_black76
    simp only [hv, black76_valid_eq F K T D σ OptionType.CALL hF hK hT hσ, hu]
  · have hv : OptionType.ofValue "put" = some OptionType.PUT := by decide
    have hu : strUpper "put" = "PUT" := by decide
    unfold price_option_black76
    simp only [hv, black76_valid_eq F K T D σ OptionType.PUT hF hK hT hσ, hu]

/-- Witness for C8: the call response shape at F = K = T = D = σ = 1. -/
theorem C8_rounding_contract_witness :
    (0:ℝ) < 1 ∧ price_option_black76 ⟨1, 1, 1, 1, 1, "call"⟩ =
      ToolResponse.success "CALL" 1 1
        (pyRound (blackResult 1 1 1 1 1 OptionType.CALL).price 2)
        (pyRound (blackResult 1 1 1 1 1 OptionType.CALL).delta 4)
        (pyRound (blackResult 1 1 1 1 1 OptionType.CALL).gamma 6)
        (pyRound ((blackResult 1 1 1 1 1 OptionType.CALL).vega * 100) 2) :=
  ⟨by norm_num, (C8_rounding_contract.2 1 1 1 1 1 (by norm_num) (by norm_num) (by norm_num)
    (by norm_num)).1⟩
